import Mathlib

/-!
# Verification of `qctrlopencontrols/qiskit/quantum_circuit.py`

Shallow embedding of the module that converts a dynamic decoupling sequence
into a Qiskit quantum circuit, together with proofs about its behaviour.

Modelling conventions:

* Python floats are modelled as elements of a linear ordered field `K`
  (instantiated at `ℚ` for executable witnesses and at `ℝ` where the source
  uses `np.cos` / `np.sin` / `pi`), i.e. exact arithmetic with the source's
  explicit tolerance checks kept.
* `np.isclose(x, 0.0)` uses numpy's defaults `atol = 1e-8`, `rtol = 1e-5`;
  against `0.0` the relative part contributes nothing, so the test is
  `|x| ≤ 1e-8`.
* The mutation of the `QuantumCircuit` object is modelled by explicit state
  passing: the list of operations appended so far.  A raised exception is an
  `Except.error` carrying, besides the error value, the list of gate
  operations that had been appended to the circuit object when the exception
  was raised (in Python the partially built object is abandoned; recording it
  lets us reason about how much of the circuit had been constructed).
* Fallible code returns `Except`.
-/

deriving instance DecidableEq for Except

namespace QCtrl

/-- Absolute tolerance of `np.isclose(x, 0.0)`: `atol + rtol * |0.0| = 1e-8`. -/
def atol {K : Type} [DivisionRing K] : K := 1 / 100000000

/-- Modelled from the spec: the algorithm-mode constants live in
`qctrlopencontrols/qiskit/constants.py`, which is not among the given source
files; the values are taken from the docstring of
`convert_dds_to_quantum_circuit` ('Fixed duration unitary' / 'Instant
unitary').  Only their identity and distinctness matter here. -/
def FIX_DURATION_UNITARY : String := "Fixed duration unitary"

/-- Modelled from the spec: see `FIX_DURATION_UNITARY`. -/
def INSTANT_UNITARY : String := "Instant unitary"

/-- Message of the raise at line 208 of the source. -/
def msgNoSequence : String := "No dynamic decoupling sequence provided."

/-- Message of the raise at line 224. -/
def msgPrePost : String :=
  "Pre-Post gate parameters must be a list of 3 floating point numbers."

/-- Message of the raise at line 228. -/
def msgGateTime : String := "Time delay of identity gate must be greater than zero."

/-- Message of the raise at line 233 (the dead negative-qubit check). -/
def msgNegativeQubit : String := "Every target qubits index must be positive."

/-- Message of the raise at line 238. -/
def msgAlgorithm : String :=
  "Algorithm must be one of Instant unitary or Fixed duration unitary"

/-- Message of the raise at line 243. -/
def msgRegisters : String := "Target qubit is not present in quantum_registers"

/-- Message of the raise at line 84 (inside `_get_circuit_gate_list`). -/
def msgOffsets : String := "Offsets cannot be placed properly"

/-- Message of the raise at line 298. -/
def msgMultiAxis : String :=
  "Open Controls support a sequence with one valid pulse at any offset."

/-- Message of Python's built-in `ValueError` raised by `max([])`. -/
def msgEmptyMax : String := "max() arg is an empty sequence"

/-- Errors the conversion can raise.  The source raises a single exception
class `ArgumentsValueError` distinguished by message (plus Python's built-in
`ValueError` from `max` on an empty list); the spec's §7 taxonomy names the
cases, and the constructors follow that naming.  `multiAxisRotation` carries
the offending `instance_operation` triple, as the raise at lines 297-303
does. -/
inductive ConvError (K : Type) where
  | invalidSequence (msg : String)
  | invalidParameter (msg : String)
  | unrealizableOffset (msg : String)
  | multiAxisRotation (msg : String) (instance_operation : K × K × K)
  | valueError (msg : String)
deriving DecidableEq

/-- One gate operation appended to the Qiskit `QuantumCircuit`.  `barrier q`
is `quantum_circuit.barrier(quantum_registers[q])` on a single qubit;
`barrierAll` is `quantum_circuit.barrier(quantum_registers)` over the whole
register (line 327). -/
inductive EmitOp (K : Type) where
  | u3 (theta phi lam : K) (qubit : ℤ)
  | u1 (lam : K) (qubit : ℤ)
  | iden (qubit : ℤ)
  | barrier (qubit : ℤ)
  | barrierAll
  | measure (qubit : ℤ) (clbit : ℕ)
deriving DecidableEq

/-- The pulse-sequence input: ordered offsets and the three aligned rotation
arrays (the source's 1-D `numpy` arrays). -/
structure DynamicDecouplingSequence (K : Type) where
  offsets : List K
  rabi_rotations : List K
  azimuthal_angles : List K
  detuning_rotations : List K
deriving DecidableEq

/-- The returned circuit: register sizes, optional name, and the ordered list
of appended operations. -/
structure QuantumCircuit (K : Type) where
  num_qubits : ℤ
  num_clbits : ℕ
  name : Option String
  gates : List (EmitOp K)
deriving DecidableEq

/-- The `while` loop at lines 93-97 of `_get_circuit_gate_list`:

    number_of_id_gates = 0
    while (time_covered + (number_of_id_gates+1) * gate_time) <= offsets[idx]:
        circuit_operations.append('id')
        number_of_id_gates += 1

`idLoop gate_time time_covered offset k` is the final value of
`number_of_id_gates` when the loop is entered with counter `k` (the source
enters it with `k = 0`).  The `0 < gate_time` conjunct makes the function
total in Lean; the source guarantees it by the caller's validation
(`gate_time <= 0` is rejected at line 227 before this loop can run), and all
theorems below assume it, under which the guard coincides with the source's. -/
def idLoop {K : Type} [LinearOrderedField K] [FloorRing K]
    (gate_time time_covered offset : K) (k : ℕ) : ℕ :=
  if h : 0 < gate_time ∧ time_covered + ((k : K) + 1) * gate_time ≤ offset then
    idLoop gate_time time_covered offset (k + 1)
  else k
termination_by (⌈(offset - time_covered) / gate_time⌉).toNat - k
decreasing_by
  obtain ⟨hg, hle⟩ := h
  have h1 : ((k : K) + 1) * gate_time ≤ offset - time_covered := by linarith
  have h2 : ((k : K) + 1) ≤ (offset - time_covered) / gate_time :=
    (le_div_iff₀ hg).mpr h1
  have h3 : ((k : ℤ) + 1 : K) ≤ ((⌈(offset - time_covered) / gate_time⌉ : ℤ) : K) :=
    le_trans (by push_cast; linarith) (Int.le_ceil _)
  have h4 : (k : ℤ) + 1 ≤ ⌈(offset - time_covered) / gate_time⌉ := by exact_mod_cast h3
  omega

/-- The body of the `for` loop of `_get_circuit_gate_list` (lines 76-99) for
one offset: given the running `time_covered` and the column
`(offset, rabi, azimuthal, detuning)` of the `operations` matrix, return the
list of tags appended to `circuit_operations` in this iteration together with
the updated `time_covered`, or the error raised at line 84. -/
def gateListStep {K : Type} [LinearOrderedField K] [FloorRing K]
    (gate_time unitary_time time_covered offset rabi azimuthal detuning : K) :
    Except (ConvError K) (List String × K) :=
  let offset_distance : K :=
    if |offset - time_covered| ≤ atol then 0 else offset - time_covered
  if offset_distance < 0 then
    Except.error (ConvError.unrealizableOffset msgOffsets)
  else if offset_distance = 0 then
    Except.ok (["offset"],
      if |rabi + azimuthal + detuning| ≤ atol then offset
      else offset + unitary_time)
  else
    Except.ok
      (List.replicate (idLoop gate_time time_covered offset 0) "id" ++ ["offset"],
        offset + unitary_time)

/-- The columns of the source's `operations` matrix
(`np.vstack((rabi_rotations, azimuthal_angles, detuning_rotations))`), paired
with the offset of the same index.  The iteration range of the loop is
`operations.shape[1]`, the common length of the three rotation arrays
(`np.vstack` requires them equal); `offsets` is aligned to them by the
sequence's own invariant, so the `getD` defaults are never reached on valid
input. -/
def columns {K : Type} [Zero K] (s : DynamicDecouplingSequence K) :
    List (K × K × K × K) :=
  (List.range s.rabi_rotations.length).map fun i =>
    (s.offsets.getD i 0, s.rabi_rotations.getD i 0,
      s.azimuthal_angles.getD i 0, s.detuning_rotations.getD i 0)

/-- The `for` loop of `_get_circuit_gate_list`, threaded over the remaining
columns with the running `time_covered`. -/
def buildAux {K : Type} [LinearOrderedField K] [FloorRing K]
    (gate_time unitary_time : K) :
    K → List (K × K × K × K) → Except (ConvError K) (List String)
  | _, [] => Except.ok []
  | time_covered, c :: rest =>
    match gateListStep gate_time unitary_time time_covered c.1 c.2.1 c.2.2.1 c.2.2.2 with
    | Except.error e => Except.error e
    | Except.ok (ops, tc) =>
      (buildAux gate_time unitary_time tc rest).map fun l => ops ++ l

/-- `_get_circuit_gate_list` (lines 33-101): converts the operations in a
sequence into the list of symbolic gate tags (`"id"` / `"offset"`) of the
circuit, starting from `time_covered = 0`. -/
def _get_circuit_gate_list {K : Type} [LinearOrderedField K] [FloorRing K]
    (dynamic_decoupling_sequence : DynamicDecouplingSequence K)
    (gate_time unitary_time : K) : Except (ConvError K) (List String) :=
  buildAux gate_time unitary_time 0 (columns dynamic_decoupling_sequence)

/-- `_get_rotations` (lines 104-127): Cartesian rotations from one pulse's
`(rabi_rotation, azimuthal_angle, detuning_rotation)` triple. -/
noncomputable def _get_rotations (operation : ℝ × ℝ × ℝ) : ℝ × ℝ × ℝ :=
  (operation.1 * Real.cos operation.2.1,
    operation.1 * Real.sin operation.2.1,
    operation.2.2)

/-- Lines 293-296: the number of entries of `rotations` not within tolerance
of zero. -/
def nonzero_pulse_counts {K : Type} [LinearOrderedField K]
    (rotations : K × K × K) : ℕ :=
  (if |rotations.1| ≤ atol then 0 else 1) +
    (if |rotations.2.1| ≤ atol then 0 else 1) +
    (if |rotations.2.2| ≤ atol then 0 else 1)

/-- Lines 292-318: the processing of one `'offset'` entry of the gate list —
decompose the pulse with `_get_rotations`, reject multi-axis rotations, and
emit the selected elementary gate followed by a barrier for every target
qubit. -/
noncomputable def processOffset (target_qubits : List ℤ)
    (instance_operation : ℝ × ℝ × ℝ) : Except (ConvError ℝ) (List (EmitOp ℝ)) :=
  let rotations := _get_rotations instance_operation
  if 1 < nonzero_pulse_counts rotations then
    Except.error (ConvError.multiAxisRotation msgMultiAxis instance_operation)
  else
    Except.ok (target_qubits.flatMap fun qubit =>
      (if nonzero_pulse_counts rotations = 0 then
        [EmitOp.u3 0 0 0 qubit]
      else if ¬ |rotations.1| ≤ atol then
        [EmitOp.u3 rotations.1 (-(Real.pi / 2)) (Real.pi / 2) qubit]
      else if ¬ |rotations.2.1| ≤ atol then
        [EmitOp.u3 rotations.2.1 0 0 qubit]
      else if ¬ |rotations.2.2| ≤ atol then
        [EmitOp.u1 rotations.2.2 qubit]
      else []) ++ [EmitOp.barrier qubit])

/-- The walk over `circuit_gate_list` (lines 278-320), with the pulse pointer
`offset_count` and the operations appended to the circuit so far (`acc`).  On
the error raised inside the loop the operations already appended are
reported. -/
noncomputable def circuitWalk (s : DynamicDecouplingSequence ℝ)
    (target_qubits : List ℤ) :
    List String → ℕ → List (EmitOp ℝ) →
      Except (ConvError ℝ × List (EmitOp ℝ)) (List (EmitOp ℝ))
  | [], _, acc => Except.ok acc
  | gate :: rest, offset_count, acc =>
    if gate = "id" then
      circuitWalk s target_qubits rest offset_count
        (acc ++ target_qubits.flatMap fun qubit =>
          [EmitOp.iden qubit, EmitOp.barrier qubit])
    else
      match processOffset target_qubits
          (s.rabi_rotations.getD offset_count 0,
            s.azimuthal_angles.getD offset_count 0,
            s.detuning_rotations.getD offset_count 0) with
      | Except.error e => Except.error (e, acc)
      | Except.ok ops =>
        circuitWalk s target_qubits rest (offset_count + 1) (acc ++ ops)

/-- The validation at line 232, exactly as written in the source:
`np.any(target_qubits) < 0`.  `np.any` returns a boolean — true iff some
entry is nonzero — which the comparison then treats as the integer 0 or 1. -/
def target_qubits_validation (target_qubits : List ℤ) : Bool :=
  decide ((if target_qubits.any fun q => q != 0 then (1 : ℤ) else 0) < 0)

/-- `convert_dds_to_quantum_circuit` (lines 130-334).  `Option` models
Python's `None` defaults; a provided `quantum_registers` is modelled by its
length.  The result on failure carries the list of operations that had been
appended to the circuit when the exception was raised. -/
noncomputable def convert_dds_to_quantum_circuit
    (dynamic_decoupling_sequence : Option (DynamicDecouplingSequence ℝ))
    (target_qubits0 : Option (List ℤ))
    (gate_time : ℝ)
    (pre_post_gate_parameters0 : Option (List ℝ))
    (add_measurement : Bool)
    (algorithm : String)
    (quantum_registers : Option ℕ)
    (circuit_name : Option String) :
    Except (ConvError ℝ × List (EmitOp ℝ)) (QuantumCircuit ℝ) :=
  match dynamic_decoupling_sequence with
  | none => Except.error (ConvError.invalidSequence msgNoSequence, [])
  | some seq =>
    let target_qubits := target_qubits0.getD [0]
    let pre_post :=
      pre_post_gate_parameters0.getD [Real.pi / 2, -(Real.pi / 2), Real.pi / 2]
    if pre_post.length ≠ 3 then
      Except.error (ConvError.invalidParameter msgPrePost, [])
    else if gate_time ≤ 0 then
      Except.error (ConvError.invalidParameter msgGateTime, [])
    else if target_qubits_validation target_qubits then
      Except.error (ConvError.invalidParameter msgNegativeQubit, [])
    else if ¬ (algorithm = FIX_DURATION_UNITARY ∨ algorithm = INSTANT_UNITARY) then
      Except.error (ConvError.invalidParameter msgAlgorithm, [])
    else
      match target_qubits.max? with
      | none => Except.error (ConvError.valueError msgEmptyMax, [])
      | some mq =>
        let sized : Except (ConvError ℝ) ℤ :=
          match quantum_registers with
          | some nq =>
            if mq + 1 > (nq : ℤ) then
              Except.error (ConvError.invalidParameter msgRegisters)
            else Except.ok (nq : ℤ)
          | none => Except.ok (mq + 1)
        match sized with
        | Except.error e => Except.error (e, [])
        | Except.ok num_qubits =>
          let num_clbits := if add_measurement then target_qubits.length else 0
          let unitary_time : ℝ :=
            if algorithm = FIX_DURATION_UNITARY then gate_time else 0
          match _get_circuit_gate_list seq gate_time unitary_time with
          | Except.error e => Except.error (e, [])
          | Except.ok circuit_gate_list =>
            let preGates := target_qubits.flatMap fun qubit =>
              [EmitOp.u3 (pre_post.getD 0 0) (pre_post.getD 1 0)
                (pre_post.getD 2 0) qubit,
                EmitOp.barrier qubit]
            match circuitWalk seq target_qubits circuit_gate_list 0 preGates with
            | Except.error eg => Except.error eg
            | Except.ok gates1 =>
              let postGates := target_qubits.flatMap fun qubit =>
                [EmitOp.u3 (pre_post.getD 0 0) (pre_post.getD 1 0)
                  (pre_post.getD 2 0) qubit,
                  EmitOp.barrierAll]
              let measureGates :=
                if add_measurement then
                  target_qubits.enum.map fun p => EmitOp.measure p.2 p.1
                else []
              Except.ok
                { num_qubits := num_qubits
                  num_clbits := num_clbits
                  name := circuit_name
                  gates := gates1 ++ postGates ++ measureGates }

/-- Spec-side notion ("zero strength", §4.1/§3 of the spec): a pulse that
produces no rotation — its rabi rotation and its detuning rotation are both
zero, whatever the azimuthal angle (a pure phase). -/
def specZeroStrength {K : Type} [Zero K] (rabi azimuthal detuning : K) : Prop :=
  rabi = 0 ∧ detuning = 0

/-- The pulse-pointer discipline of the assembler walk (lines 278-320): the
indices passed to the rotation arrays while walking a symbolic gate list,
starting the pointer at `offset_count`; `'id'` entries leave the pointer
unchanged (the `continue` at line 285), every other entry reads the arrays at
the pointer and advances it. -/
def walkIndicesAux : List String → ℕ → List ℕ
  | [], _ => []
  | gate :: rest, offset_count =>
    if gate = "id" then walkIndicesAux rest offset_count
    else offset_count :: walkIndicesAux rest (offset_count + 1)

/-- `walkIndicesAux` from pointer 0, as the assembler starts (line 278). -/
def walkIndices (l : List String) : List ℕ := walkIndicesAux l 0

theorem atol_pos {K : Type} [LinearOrderedField K] : (0 : K) < atol := by
  unfold atol; norm_num

/-- The delay loop computes the floor of the remaining distance divided by
the gate time (clamped below by the entry counter). -/
theorem idLoop_eq {K : Type} [LinearOrderedField K] [FloorRing K]
    (gate_time time_covered offset : K) (hg : 0 < gate_time) (k : ℕ) :
    idLoop gate_time time_covered offset k =
      max k (⌊(offset - time_covered) / gate_time⌋).toNat := by
  rw [idLoop]
  by_cases hle : time_covered + ((k : K) + 1) * gate_time ≤ offset
  · rw [dif_pos ⟨hg, hle⟩, idLoop_eq gate_time time_covered offset hg (k + 1)]
    have h1 : ((k : K) + 1) * gate_time ≤ offset - time_covered := by linarith
    have h2 : ((k : K) + 1) ≤ (offset - time_covered) / gate_time :=
      (le_div_iff₀ hg).mpr h1
    have h3 : (k : ℤ) + 1 ≤ ⌊(offset - time_covered) / gate_time⌋ :=
      Int.le_floor.mpr (by push_cast; linarith)
    omega
  · rw [dif_neg (by intro hc; exact hle hc.2)]
    have h1 : ¬ ((k : K) + 1) * gate_time ≤ offset - time_covered := by
      intro hc; exact hle (by linarith)
    have h2 : (offset - time_covered) / gate_time < (k : K) + 1 := by
      by_contra hc
      exact h1 ((le_div_iff₀ hg).mp (le_of_not_lt hc))
    have h3 : ⌊(offset - time_covered) / gate_time⌋ < (k : ℤ) + 1 := by
      have := Int.floor_le ((offset - time_covered) / gate_time)
      have hcast : ((⌊(offset - time_covered) / gate_time⌋ : ℤ) : K) < (k : K) + 1 :=
        lt_of_le_of_lt this h2
      exact_mod_cast hcast
    omega
termination_by (⌈(offset - time_covered) / gate_time⌉).toNat - k
decreasing_by
  have h1 : ((k : K) + 1) * gate_time ≤ offset - time_covered := by linarith
  have h2 : ((k : K) + 1) ≤ (offset - time_covered) / gate_time :=
    (le_div_iff₀ hg).mpr h1
  have h3 : ((k : ℤ) + 1 : K) ≤ ((⌈(offset - time_covered) / gate_time⌉ : ℤ) : K) :=
    le_trans (by push_cast; linarith) (Int.le_ceil _)
  have h4 : (k : ℤ) + 1 ≤ ⌈(offset - time_covered) / gate_time⌉ := by exact_mod_cast h3
  omega

/-- C9: under the caller-established precondition `gate_time > 0`, the inner
delay-insertion loop performs at most `⌈(offset − time_covered)/gate_time⌉`
iterations (its totality in Lean is established by exactly this bound as a
termination measure). -/
theorem delay_loop_bounded {K : Type} [LinearOrderedField K] [FloorRing K]
    (gate_time time_covered offset : K) (hg : 0 < gate_time) :
    idLoop gate_time time_covered offset 0 ≤
      (⌈(offset - time_covered) / gate_time⌉).toNat := by
  rw [idLoop_eq gate_time time_covered offset hg 0]
  have := Int.floor_le_ceil ((offset - time_covered) / gate_time)
  omega

/-- Witness for `delay_loop_bounded` at `gate_time = 1/10`, `time_covered = 0`,
`offset = 1/4`. -/
theorem delay_loop_bounded_witness :
    idLoop (1 / 10 : ℚ) 0 (1 / 4) 0 ≤ (⌈((1 / 4 : ℚ) - 0) / (1 / 10)⌉).toNat :=
  delay_loop_bounded (1 / 10 : ℚ) 0 (1 / 4) (by norm_num)

/-- C4: when the snapped distance is positive, the step inserts exactly
`⌊(offset − time_covered)/gate_time⌋` delay tags, followed by the pulse-slot
tag, and covers time `offset + unitary_time`. -/
theorem delay_count_eq_floor {K : Type} [LinearOrderedField K] [FloorRing K]
    (gate_time unitary_time time_covered offset rabi azimuthal detuning : K)
    (hg : 0 < gate_time) (hd : atol < offset - time_covered) :
    gateListStep gate_time unitary_time time_covered offset rabi azimuthal detuning =
      Except.ok
        (List.replicate (⌊(offset - time_covered) / gate_time⌋).toNat "id" ++
            ["offset"],
          offset + unitary_time) := by
  have hpos : (0 : K) < offset - time_covered := lt_trans atol_pos hd
  have h1 : ¬ |offset - time_covered| ≤ atol := by
    intro hab
    exact absurd hd (not_lt.mpr (abs_le.mp hab).2)
  unfold gateListStep
  rw [if_neg h1, if_neg (not_lt.mpr (le_of_lt hpos)), if_neg (ne_of_gt hpos),
    idLoop_eq gate_time time_covered offset hg 0]
  rw [Nat.max_eq_right (Nat.zero_le _)]

/-- Witness for `delay_count_eq_floor`: the spec's end-to-end scenario B — a
single offset at `t = 1/4` with `gate_time = 1/10` from `time_covered = 0`
yields exactly two delay tags before the pulse-slot. -/
theorem delay_count_eq_floor_witness :
    gateListStep (1 / 10 : ℚ) (1 / 10) 0 (1 / 4) 0 0 0 =
      Except.ok (["id", "id", "offset"], (1 / 4 : ℚ) + 1 / 10) := by
  have h := delay_count_eq_floor (1 / 10 : ℚ) (1 / 10) 0 (1 / 4) 0 0 0
    (by norm_num) (by unfold atol; norm_num)
  rw [h]
  norm_num
  rfl

/-- C3 (amended): for an offset whose snapped distance from `time_covered`
is zero, the step appends exactly the pulse-slot tag, and sets
`time_covered` to the offset exactly when the *sum*
`rabi + azimuthal + detuning` is within tolerance of zero (the test at
line 88), and to `offset + unitary_time` otherwise. -/
theorem zero_distance_step {K : Type} [LinearOrderedField K] [FloorRing K]
    (gate_time unitary_time time_covered offset rabi azimuthal detuning : K)
    (h : |offset - time_covered| ≤ atol) :
    gateListStep gate_time unitary_time time_covered offset rabi azimuthal detuning =
      Except.ok (["offset"],
        if |rabi + azimuthal + detuning| ≤ atol then offset
        else offset + unitary_time) := by
  unfold gateListStep
  rw [if_pos h]
  norm_num

/-- Witness for `zero_distance_step` at a pulse sitting exactly on
`time_covered`. -/
theorem zero_distance_step_witness :
    gateListStep (1 / 10 : ℚ) (1 / 10) 0 0 0 0 0 = Except.ok (["offset"], 0) := by
  have h := zero_distance_step (1 / 10 : ℚ) (1 / 10) 0 0 0 0 0
    (by unfold atol; norm_num)
  rw [h]
  norm_num
  unfold atol; norm_num

/-- C3 counterexample: the pulse `(rabi, azimuthal, detuning) = (0, 1, 0)`
has zero strength — it produces no rotation, since its rabi and detuning
rotations are both zero — yet at a zero-distance offset the step advances
`time_covered` to `offset + unitary_time` (here `0 + 1/10 ≠ 0 = offset`),
because the code tests the sum `rabi + azimuthal + detuning ≈ 0` (line 88)
rather than the pulse's strength. -/
theorem zero_strength_counterexample :
    gateListStep (1 / 10 : ℚ) (1 / 10) 0 0 0 1 0 =
        Except.ok (["offset"], 0 + 1 / 10)
      ∧ specZeroStrength (0 : ℚ) 1 0 ∧ (0 + 1 / 10 : ℚ) ≠ 0 := by
  refine ⟨?_, ⟨rfl, rfl⟩, by norm_num⟩
  rw [zero_distance_step (1 / 10 : ℚ) (1 / 10) 0 0 0 1 0 (by unfold atol; norm_num)]
  rw [if_neg (by unfold atol; norm_num)]

/-- The only error a single step can produce is the unrealizable-offset
error of line 84. -/
theorem gateListStep_error_form {K : Type} [LinearOrderedField K] [FloorRing K]
    (gate_time unitary_time time_covered offset rabi azimuthal detuning : K)
    (e : ConvError K)
    (h : gateListStep gate_time unitary_time time_covered offset rabi azimuthal
        detuning = Except.error e) :
    e = ConvError.unrealizableOffset msgOffsets := by
  simp only [gateListStep] at h
  split at h
  · norm_num at h
    exact Except.noConfusion h
  · split at h
    · simp only [Except.error.injEq] at h
      exact h.symm
    · split at h
      · exact Except.noConfusion h
      · exact Except.noConfusion h

/-- The only error the builder loop can produce is the unrealizable-offset
error of line 84. -/
theorem buildAux_error_form {K : Type} [LinearOrderedField K] [FloorRing K]
    (gate_time unitary_time : K) (cols : List (K × K × K × K)) :
    ∀ (time_covered : K) (e : ConvError K),
      buildAux gate_time unitary_time time_covered cols = Except.error e →
      e = ConvError.unrealizableOffset msgOffsets := by
  induction cols with
  | nil =>
    intro tc e h
    simp [buildAux] at h
  | cons c rest ih =>
    intro tc e h
    rw [buildAux] at h
    cases hstep : gateListStep gate_time unitary_time tc c.1 c.2.1 c.2.2.1 c.2.2.2 with
    | error e0 =>
      simp only [hstep] at h
      simp only [Except.error.injEq] at h
      rw [← h]
      exact gateListStep_error_form _ _ _ _ _ _ _ _ hstep
    | ok p =>
      obtain ⟨ops, tc2⟩ := p
      simp only [hstep] at h
      cases hrest : buildAux gate_time unitary_time tc2 rest with
      | error e1 =>
        simp only [hrest, Except.map, Except.error.injEq] at h
        rw [← h]
        exact ih tc2 e1 hrest
      | ok l =>
        simp only [hrest, Except.map] at h
        exact Except.noConfusion h

/-- C7: the step fails — and with `UnrealizableOffsetError` — exactly when
the offset's distance from `time_covered` is negative by more than the
tolerance; a distance within tolerance of zero is snapped to zero, appending
only the pulse-slot tag (no delay, no error); and the only error
`_get_circuit_gate_list` ever produces is `UnrealizableOffsetError`. -/
theorem unrealizable_offset_iff {K : Type} [LinearOrderedField K] [FloorRing K]
    (s : DynamicDecouplingSequence K)
    (gate_time unitary_time time_covered offset rabi azimuthal detuning : K) :
    ((∃ e, gateListStep gate_time unitary_time time_covered offset rabi azimuthal
        detuning = Except.error e) ↔ offset - time_covered < -atol)
    ∧ (|offset - time_covered| ≤ atol →
        (gateListStep gate_time unitary_time time_covered offset rabi azimuthal
            detuning).map Prod.fst = Except.ok ["offset"])
    ∧ (∀ e, _get_circuit_gate_list s gate_time unitary_time = Except.error e →
        e = ConvError.unrealizableOffset msgOffsets) := by
  refine ⟨⟨?_, ?_⟩, ?_, ?_⟩
  · rintro ⟨e, he⟩
    by_cases hsnap : |offset - time_covered| ≤ atol
    · rw [zero_distance_step _ _ _ _ _ _ _ hsnap] at he
      exact absurd he (by simp)
    · by_cases hneg : offset - time_covered < 0
      · have habs : atol < |offset - time_covered| := lt_of_not_le hsnap
        rw [abs_of_neg hneg] at habs
        linarith
      · exfalso
        have hne : offset - time_covered ≠ 0 := fun hz => hsnap (by
          rw [hz]
          simpa using le_of_lt (atol_pos (K := K)))
        simp only [gateListStep] at he
        rw [if_neg hsnap, if_neg hneg, if_neg hne] at he
        exact absurd he (by simp)
  · intro hlt
    have hneg : offset - time_covered < 0 := lt_trans hlt (neg_lt_zero.mpr atol_pos)
    have hsnap : ¬ |offset - time_covered| ≤ atol := by
      rw [abs_of_neg hneg]
      intro hle
      linarith
    refine ⟨ConvError.unrealizableOffset msgOffsets, ?_⟩
    simp only [gateListStep]
    rw [if_neg hsnap, if_pos hneg]
  · intro hsnap
    rw [zero_distance_step _ _ _ _ _ _ _ hsnap]
    rfl
  · intro e he
    exact buildAux_error_form gate_time unitary_time (columns s) 0 e he

/-- Witness for `unrealizable_offset_iff` (snapping conjunct) at an offset
within tolerance of `time_covered`. -/
theorem unrealizable_offset_iff_witness :
    (gateListStep (1 / 10 : ℚ) (1 / 10) (1 / 4) (1 / 4) 1 0 0).map Prod.fst =
      Except.ok ["offset"] :=
  (unrealizable_offset_iff (⟨[], [], [], []⟩ : DynamicDecouplingSequence ℚ)
    (1 / 10) (1 / 10) (1 / 4) (1 / 4) 1 0 0).2.1 (by unfold atol; norm_num)

/-- Every successful step appends exactly one `"offset"` tag, and nothing
besides `"id"` and `"offset"` tags. -/
theorem gateListStep_ok_shape {K : Type} [LinearOrderedField K] [FloorRing K]
    (gate_time unitary_time time_covered offset rabi azimuthal detuning : K)
    (ops : List String) (tc : K)
    (h : gateListStep gate_time unitary_time time_covered offset rabi azimuthal
        detuning = Except.ok (ops, tc)) :
    ops.count "offset" = 1 ∧ ∀ x ∈ ops, x = "id" ∨ x = "offset" := by
  simp only [gateListStep] at h
  split at h
  · norm_num at h
    constructor
    · rw [← h.1]
      rfl
    · intro x hx
      rw [← h.1] at hx
      simp at hx
      right
      exact hx
  · split at h
    · exact Except.noConfusion h
    · split at h
      · simp only [Except.ok.injEq, Prod.mk.injEq] at h
        constructor
        · rw [← h.1]
          rfl
        · intro x hx
          rw [← h.1] at hx
          simp at hx
          right
          exact hx
      · simp only [Except.ok.injEq, Prod.mk.injEq] at h
        constructor
        · rw [← h.1]
          rw [List.count_append, List.count_replicate]
          rfl
        · intro x hx
          rw [← h.1] at hx
          rw [List.mem_append] at hx
          rcases hx with hx | hx
          · left
            exact (List.eq_of_mem_replicate hx)
          · right
            simpa using hx

/-- A successful run of the builder loop returns one `"offset"` tag per
column, and only `"id"`/`"offset"` tags. -/
theorem buildAux_ok_shape {K : Type} [LinearOrderedField K] [FloorRing K]
    (gate_time unitary_time : K) (cols : List (K × K × K × K)) :
    ∀ (time_covered : K) (l : List String),
      buildAux gate_time unitary_time time_covered cols = Except.ok l →
      l.count "offset" = cols.length ∧ ∀ x ∈ l, x = "id" ∨ x = "offset" := by
  induction cols with
  | nil =>
    intro tc l h
    simp only [buildAux, Except.ok.injEq] at h
    rw [← h]
    exact ⟨rfl, by simp⟩
  | cons c rest ih =>
    intro tc l h
    rw [buildAux] at h
    cases hstep : gateListStep gate_time unitary_time tc c.1 c.2.1 c.2.2.1 c.2.2.2 with
    | error e0 =>
      simp only [hstep] at h
      exact Except.noConfusion h
    | ok p =>
      obtain ⟨ops, tc2⟩ := p
      simp only [hstep] at h
      cases hrest : buildAux gate_time unitary_time tc2 rest with
      | error e1 =>
        simp only [hrest, Except.map] at h
        exact Except.noConfusion h
      | ok l2 =>
        simp only [hrest, Except.map, Except.ok.injEq] at h
        obtain ⟨hc1, hm1⟩ :=
          gateListStep_ok_shape gate_time unitary_time tc c.1 c.2.1 c.2.2.1
            c.2.2.2 ops tc2 hstep
        obtain ⟨hc2, hm2⟩ := ih tc2 l2 hrest
        rw [← h]
        constructor
        · rw [List.count_append, hc1, hc2, List.length_cons]
          omega
        · intro x hx
          rw [List.mem_append] at hx
          rcases hx with hx | hx
          · exact hm1 x hx
          · exact hm2 x hx

/-- Over a list of `"id"`/`"offset"` tags, the walk's pulse pointer visits
exactly the consecutive indices starting at its initial value, one per
`"offset"` tag. -/
theorem walkIndicesAux_eq (l : List String)
    (hmem : ∀ x ∈ l, x = "id" ∨ x = "offset") :
    ∀ c, walkIndicesAux l c = List.range' c (l.count "offset") := by
  induction l with
  | nil =>
    intro c
    rfl
  | cons g rest ih =>
    intro c
    have hrest : ∀ x ∈ rest, x = "id" ∨ x = "offset" := fun x hx =>
      hmem x (List.mem_cons_of_mem g hx)
    rcases hmem g (List.mem_cons_self g rest) with hg | hg
    · rw [hg]
      show walkIndicesAux rest c = _
      rw [ih hrest c]
      congr 1
    · rw [hg]
      show (c :: walkIndicesAux rest (c + 1)) = _
      rw [ih hrest (c + 1)]
      have : List.count "offset" ("offset" :: rest) = rest.count "offset" + 1 := by
        simp [List.count_cons]
      rw [this, List.range'_succ]

/-- C8: on every sequence for which `_get_circuit_gate_list` returns
normally, the returned list has exactly one `"offset"` entry per pulse of
the sequence, and the assembler's pulse pointer consequently visits exactly
the indices `0 .. n−1` in order — it never reads the rotation arrays out of
range. -/
theorem offset_count_invariant {K : Type} [LinearOrderedField K] [FloorRing K]
    (s : DynamicDecouplingSequence K) (gate_time unitary_time : K)
    (l : List String)
    (h : _get_circuit_gate_list s gate_time unitary_time = Except.ok l) :
    l.count "offset" = s.rabi_rotations.length
      ∧ walkIndices l = List.range s.rabi_rotations.length := by
  unfold _get_circuit_gate_list at h
  obtain ⟨hc, hm⟩ := buildAux_ok_shape gate_time unitary_time (columns s) 0 l h
  have hlen : (columns s).length = s.rabi_rotations.length := by
    unfold columns
    rw [List.length_map, List.length_range]
  rw [hlen] at hc
  refine ⟨hc, ?_⟩
  unfold walkIndices
  rw [walkIndicesAux_eq l hm 0, hc, List.range_eq_range']

/-- Witness for `offset_count_invariant` on a one-pulse sequence. -/
theorem offset_count_invariant_witness :
    List.count "offset" ["offset"] =
        (⟨[0], [0], [0], [0]⟩ : DynamicDecouplingSequence ℚ).rabi_rotations.length
      ∧ walkIndices ["offset"] =
        List.range (⟨[0], [0], [0], [0]⟩ :
          DynamicDecouplingSequence ℚ).rabi_rotations.length :=
  offset_count_invariant (⟨[0], [0], [0], [0]⟩ : DynamicDecouplingSequence ℚ)
    (1 / 10) (1 / 10) ["offset"] (by
      unfold _get_circuit_gate_list columns buildAux
      norm_num
      rw [zero_distance_step (1 / 10 : ℚ) (1 / 10) 0 0 0 0 0 (by unfold atol; norm_num)]
      rw [if_pos (by unfold atol; norm_num)]
      rfl)

/-- The only error the per-pulse processing can produce is the multi-axis
rejection of lines 297-303, and it carries the offending triple. -/
theorem processOffset_error_form (target_qubits : List ℤ) (op : ℝ × ℝ × ℝ)
    (e : ConvError ℝ) (h : processOffset target_qubits op = Except.error e) :
    e = ConvError.multiAxisRotation msgMultiAxis op := by
  simp only [processOffset] at h
  split at h
  · simp only [Except.error.injEq] at h
    exact h.symm
  · exact Except.noConfusion h

/-- C5: the per-pulse processing fails — with `MultiAxisRotationError`
carrying the offending triple — exactly when more than one component of the
pulse's Cartesian rotation triple has magnitude not within tolerance of
zero; with at most one non-zero component it always succeeds. -/
theorem multi_axis_rejection (target_qubits : List ℤ) (op : ℝ × ℝ × ℝ) :
    (processOffset target_qubits op =
        Except.error (ConvError.multiAxisRotation msgMultiAxis op)
      ↔ 1 < nonzero_pulse_counts (_get_rotations op))
    ∧ (nonzero_pulse_counts (_get_rotations op) ≤ 1 →
        ∃ out, processOffset target_qubits op = Except.ok out) := by
  refine ⟨⟨?_, ?_⟩, ?_⟩
  · intro h
    by_cases hc : 1 < nonzero_pulse_counts (_get_rotations op)
    · exact hc
    · simp only [processOffset, if_neg hc] at h
      exact Except.noConfusion h
  · intro hc
    simp only [processOffset, if_pos hc]
  · intro h1
    simp only [processOffset, if_neg (not_lt.mpr h1)]
    exact ⟨_, rfl⟩

/-- Witness for `multi_axis_rejection`: the spec's test triple
`(amplitude, phase, detuning) = (1, 0, 1)` has both x- and z-components
non-zero and is rejected. -/
theorem multi_axis_rejection_witness :
    processOffset [0] ((1 : ℝ), 0, 1) =
      Except.error (ConvError.multiAxisRotation msgMultiAxis ((1 : ℝ), 0, 1)) :=
  (multi_axis_rejection [0] ((1 : ℝ), 0, 1)).1.mpr (by
    unfold nonzero_pulse_counts _get_rotations atol
    norm_num)

/-- C6: the decomposition computes
`(x, y, z) = (amplitude·cos phase, amplitude·sin phase, detuning)`, and per
pulse-slot and per target qubit the assembler emits: `u3 (x, −π/2, π/2)`
when x alone is active, `u3 (y, 0, 0)` when y alone is active, the
single-parameter `u1 z` when z alone is active, and the zero-rotation
`u3 (0, 0, 0)` — still emitted, not skipped — when no axis is active; each
followed by a barrier. -/
theorem rotation_decomposition (a p d : ℝ) (target_qubits : List ℤ) :
    _get_rotations (a, p, d) = (a * Real.cos p, a * Real.sin p, d)
    ∧ (¬ |a * Real.cos p| ≤ atol → |a * Real.sin p| ≤ atol → |d| ≤ atol →
        processOffset target_qubits (a, p, d) =
          Except.ok (target_qubits.flatMap fun q =>
            [EmitOp.u3 (a * Real.cos p) (-(Real.pi / 2)) (Real.pi / 2) q,
              EmitOp.barrier q]))
    ∧ (|a * Real.cos p| ≤ atol → ¬ |a * Real.sin p| ≤ atol → |d| ≤ atol →
        processOffset target_qubits (a, p, d) =
          Except.ok (target_qubits.flatMap fun q =>
            [EmitOp.u3 (a * Real.sin p) 0 0 q, EmitOp.barrier q]))
    ∧ (|a * Real.cos p| ≤ atol → |a * Real.sin p| ≤ atol → ¬ |d| ≤ atol →
        processOffset target_qubits (a, p, d) =
          Except.ok (target_qubits.flatMap fun q =>
            [EmitOp.u1 d q, EmitOp.barrier q]))
    ∧ (|a * Real.cos p| ≤ atol → |a * Real.sin p| ≤ atol → |d| ≤ atol →
        processOffset target_qubits (a, p, d) =
          Except.ok (target_qubits.flatMap fun q =>
            [EmitOp.u3 0 0 0 q, EmitOp.barrier q])) := by
  refine ⟨rfl, ?_, ?_, ?_, ?_⟩
  · intro hx hy hz
    have hc : nonzero_pulse_counts (a * Real.cos p, a * Real.sin p, d) = 1 := by
      simp only [nonzero_pulse_counts]
      rw [if_neg hx, if_pos hy, if_pos hz]
    simp [processOffset, _get_rotations, hc, hx, hy, hz]
  · intro hx hy hz
    have hc : nonzero_pulse_counts (a * Real.cos p, a * Real.sin p, d) = 1 := by
      simp only [nonzero_pulse_counts]
      rw [if_pos hx, if_neg hy, if_pos hz]
    simp [processOffset, _get_rotations, hc, hx, hy, hz]
  · intro hx hy hz
    have hc : nonzero_pulse_counts (a * Real.cos p, a * Real.sin p, d) = 1 := by
      simp only [nonzero_pulse_counts]
      rw [if_pos hx, if_pos hy, if_neg hz]
    simp [processOffset, _get_rotations, hc, hx, hy, hz]
  · intro hx hy hz
    have hc : nonzero_pulse_counts (a * Real.cos p, a * Real.sin p, d) = 0 := by
      simp only [nonzero_pulse_counts]
      rw [if_pos hx, if_pos hy, if_pos hz]
    simp [processOffset, _get_rotations, hc, hx, hy, hz]

/-- Witness for `rotation_decomposition`: amplitude 1 at phase 0 is an
x-axis rotation realized as `u3 (1, −π/2, π/2)`. -/
theorem rotation_decomposition_witness :
    processOffset [0] ((1 : ℝ), 0, 0) =
      Except.ok [EmitOp.u3 1 (-(Real.pi / 2)) (Real.pi / 2) 0, EmitOp.barrier 0] := by
  have h := (rotation_decomposition 1 0 0 [0]).2.1
    (by rw [Real.cos_zero]; unfold atol; norm_num)
    (by rw [Real.sin_zero]; unfold atol; norm_num)
    (by unfold atol; norm_num)
  rw [h]
  rw [Real.cos_zero]
  norm_num

/-- Every error of the assembler's walk over the gate list is a multi-axis
rejection. -/
theorem circuitWalk_error_form (s : DynamicDecouplingSequence ℝ)
    (target_qubits : List ℤ) (l : List String) :
    ∀ (c : ℕ) (acc g : List (EmitOp ℝ)) (e : ConvError ℝ),
      circuitWalk s target_qubits l c acc = Except.error (e, g) →
      ∃ t, e = ConvError.multiAxisRotation msgMultiAxis t := by
  induction l with
  | nil =>
    intro c acc g e h
    simp [circuitWalk] at h
  | cons gate rest ih =>
    intro c acc g e h
    rw [circuitWalk] at h
    by_cases hid : gate = "id"
    · rw [if_pos hid] at h
      exact ih _ _ _ _ h
    · rw [if_neg hid] at h
      cases hp : processOffset target_qubits
          (s.rabi_rotations.getD c 0, s.azimuthal_angles.getD c 0,
            s.detuning_rotations.getD c 0) with
      | error e0 =>
        simp only [hp, Except.error.injEq, Prod.mk.injEq] at h
        obtain ⟨he0, -⟩ := h
        subst he0
        exact ⟨_, processOffset_error_form target_qubits _ e0 hp⟩
      | ok ops =>
        simp only [hp] at h
        exact ih _ _ _ _ h

/-- C1 (amended): whenever the conversion fails with any error other than
the multi-axis rejection — i.e. with `InvalidSequenceError`,
`InvalidParameterError`, `UnrealizableOffsetError`, or the built-in
`ValueError` — no gate operation had yet been appended to the circuit.
(`MultiAxisRotationError` is excluded: it is raised inside the emission
walk, after the pre-calibration gates and any earlier walk gates.) -/
theorem errors_before_emission
    (dds : Option (DynamicDecouplingSequence ℝ)) (tq0 : Option (List ℤ))
    (gate_time : ℝ) (ppp0 : Option (List ℝ)) (add_measurement : Bool)
    (algorithm : String) (quantum_registers : Option ℕ)
    (circuit_name : Option String) (e : ConvError ℝ) (g : List (EmitOp ℝ))
    (h : convert_dds_to_quantum_circuit dds tq0 gate_time ppp0 add_measurement
      algorithm quantum_registers circuit_name = Except.error (e, g))
    (hne : ∀ m t, e ≠ ConvError.multiAxisRotation m t) :
    g = [] := by
  cases dds with
  | none =>
    simp only [convert_dds_to_quantum_circuit, Except.error.injEq,
      Prod.mk.injEq] at h
    exact h.2.symm
  | some seq =>
    simp only [convert_dds_to_quantum_circuit] at h
    by_cases h3 : (ppp0.getD [Real.pi / 2, -(Real.pi / 2), Real.pi / 2]).length ≠ 3
    · rw [if_pos h3] at h
      simp only [Except.error.injEq, Prod.mk.injEq] at h
      exact h.2.symm
    · rw [if_neg h3] at h
      by_cases hgt : gate_time ≤ 0
      · rw [if_pos hgt] at h
        simp only [Except.error.injEq, Prod.mk.injEq] at h
        exact h.2.symm
      · rw [if_neg hgt] at h
        by_cases hval : target_qubits_validation (tq0.getD [0]) = true
        · rw [if_pos hval] at h
          simp only [Except.error.injEq, Prod.mk.injEq] at h
          exact h.2.symm
        · rw [if_neg hval] at h
          by_cases halg :
              ¬ (algorithm = FIX_DURATION_UNITARY ∨ algorithm = INSTANT_UNITARY)
          · rw [if_pos halg] at h
            simp only [Except.error.injEq, Prod.mk.injEq] at h
            exact h.2.symm
          · rw [if_neg halg] at h
            cases hmax : (tq0.getD [0]).max? with
            | none =>
              simp only [hmax, Except.error.injEq, Prod.mk.injEq] at h
              exact h.2.symm
            | some mq =>
              simp only [hmax] at h
              split at h
              · simp only [Except.error.injEq, Prod.mk.injEq] at h
                exact h.2.symm
              · split at h
                · simp only [Except.error.injEq, Prod.mk.injEq] at h
                  exact h.2.symm
                · split at h
                  · rename_i eg heq
                    obtain ⟨e0, g0⟩ := eg
                    simp only [Except.error.injEq, Prod.mk.injEq] at h
                    exfalso
                    obtain ⟨t, ht⟩ :=
                      circuitWalk_error_form seq (tq0.getD [0]) _ _ _ _ _ heq
                    exact hne msgMultiAxis t (by rw [← h.1]; exact ht)
                  · exact Except.noConfusion h

/-- Evaluation: a one-pulse sequence whose offset is within tolerance of 0
builds the single-tag list `["offset"]`. -/
theorem builder_single (gt ut o r a d : ℝ) (h : |o - 0| ≤ atol) :
    _get_circuit_gate_list
        (⟨[o], [r], [a], [d]⟩ : DynamicDecouplingSequence ℝ) gt ut =
      Except.ok ["offset"] := by
  have hcols : columns (⟨[o], [r], [a], [d]⟩ : DynamicDecouplingSequence ℝ) =
      [(o, r, a, d)] := rfl
  show buildAux gt ut 0 (columns ⟨[o], [r], [a], [d]⟩) = Except.ok ["offset"]
  rw [hcols, buildAux, zero_distance_step gt ut 0 o r a d h]
  rfl

/-- Evaluation: the all-zero pulse is a zero-rotation slot, emitted as
`u3 (0,0,0)` plus a barrier per target qubit. -/
theorem processOffset_zero_pulse (target_qubits : List ℤ) :
    processOffset target_qubits ((0 : ℝ), 0, 0) =
      Except.ok (target_qubits.flatMap fun q =>
        [EmitOp.u3 0 0 0 q, EmitOp.barrier q]) := by
  have hrot : _get_rotations ((0 : ℝ), 0, 0) = ((0 : ℝ), 0, 0) := by
    simp [_get_rotations]
  have hc : nonzero_pulse_counts ((0 : ℝ), (0 : ℝ), (0 : ℝ)) = 0 := by
    have h0 : |(0 : ℝ)| ≤ atol := by norm_num [atol]
    simp only [nonzero_pulse_counts, if_pos h0]
  simp only [processOffset, hrot, hc]
  rw [if_neg (by norm_num)]
  rfl

/-- Evaluation: the pulse `(1, 0, 1)` activates both the x- and z-axes and
is rejected with the offending triple. -/
theorem processOffset_multiaxis_eval :
    processOffset [0] ((1 : ℝ), 0, 1) =
      Except.error (ConvError.multiAxisRotation msgMultiAxis ((1 : ℝ), 0, 1)) := by
  have hc : nonzero_pulse_counts (_get_rotations ((1 : ℝ), 0, 1)) = 2 := by
    simp [nonzero_pulse_counts, _get_rotations, atol]
    norm_num
  simp [processOffset, hc]

/-- C1 counterexample: on a sequence whose only pulse is multi-axis, the
conversion raises `MultiAxisRotationError` only after the pre-calibration
gate and its barrier have already been emitted onto the circuit — so not
all validation happens before gate emission. -/
theorem partial_emission_counterexample :
    convert_dds_to_quantum_circuit (some ⟨[0], [1], [0], [1]⟩) (some [0]) (1 / 10)
        (some [1, 1, 1]) false FIX_DURATION_UNITARY none none =
      Except.error (ConvError.multiAxisRotation msgMultiAxis (1, 0, 1),
        [EmitOp.u3 1 1 1 0, EmitOp.barrier 0])
    ∧ ([EmitOp.u3 (1 : ℝ) 1 1 0, EmitOp.barrier 0] : List (EmitOp ℝ)) ≠ [] := by
  constructor
  · have hwalk : circuitWalk (⟨[0], [1], [0], [1]⟩ : DynamicDecouplingSequence ℝ)
        [0] ["offset"] 0 [EmitOp.u3 1 1 1 0, EmitOp.barrier 0] =
        Except.error (ConvError.multiAxisRotation msgMultiAxis (1, 0, 1),
          [EmitOp.u3 1 1 1 0, EmitOp.barrier 0]) := by
      rw [circuitWalk, if_neg (by decide)]
      have hop : ((⟨[0], [1], [0], [1]⟩ :
            DynamicDecouplingSequence ℝ).rabi_rotations.getD 0 0,
          (⟨[0], [1], [0], [1]⟩ :
            DynamicDecouplingSequence ℝ).azimuthal_angles.getD 0 0,
          (⟨[0], [1], [0], [1]⟩ :
            DynamicDecouplingSequence ℝ).detuning_rotations.getD 0 0) =
          ((1 : ℝ), 0, 1) := rfl
      rw [hop, processOffset_multiaxis_eval]
    simp only [convert_dds_to_quantum_circuit, Option.getD_some]
    rw [if_neg (by norm_num), if_neg (by norm_num : ¬ (1 / 10 : ℝ) ≤ 0),
      if_neg (by decide), if_neg (by simp),
      show (([0] : List ℤ).max?) = some 0 from rfl,
      if_pos trivial,
      builder_single (1 / 10) (1 / 10) 0 1 0 1 (by norm_num [atol])]
    have hpre : (([0] : List ℤ).flatMap fun qubit =>
        [EmitOp.u3 (([1, 1, 1] : List ℝ).getD 0 0) (([1, 1, 1] : List ℝ).getD 1 0)
            (([1, 1, 1] : List ℝ).getD 2 0) qubit,
          EmitOp.barrier qubit]) = [EmitOp.u3 1 1 1 0, EmitOp.barrier 0] := rfl
    rw [hpre]
    dsimp only
    rw [hwalk]
  · simp

/-- Witness for `errors_before_emission`, applied at an input rejected for a
non-positive `gate_time`. -/
theorem errors_before_emission_witness : ([] : List (EmitOp ℝ)) = [] :=
  errors_before_emission (some ⟨[0], [0], [0], [0]⟩) (some [0]) 0 (some [1, 1, 1])
    false FIX_DURATION_UNITARY none none
    (ConvError.invalidParameter msgGateTime) []
    (by
      simp only [convert_dds_to_quantum_circuit, Option.getD_some]
      rw [if_neg (by norm_num), if_pos (le_refl (0 : ℝ))])
    (by
      intro m t hc
      exact ConvError.noConfusion hc)

/-- C2: the validation `np.any(target_qubits) < 0` (line 232) compares a
boolean with 0 and is therefore never true — so a negative target-qubit
index is not rejected: the conversion on `target_qubits = [-1]` (all other
parameters valid) completes and returns a circuit instead of raising
`InvalidParameterError`. -/
theorem negative_qubit_validation_bug :
    (∀ target_qubits : List ℤ, target_qubits_validation target_qubits = false)
    ∧ convert_dds_to_quantum_circuit (some ⟨[0], [0], [0], [0]⟩) (some [-1])
        (1 / 10) (some [1, 1, 1]) false FIX_DURATION_UNITARY none none =
      Except.ok
        { num_qubits := 0
          num_clbits := 0
          name := none
          gates := [EmitOp.u3 1 1 1 (-1), EmitOp.barrier (-1),
            EmitOp.u3 0 0 0 (-1), EmitOp.barrier (-1),
            EmitOp.u3 1 1 1 (-1), EmitOp.barrierAll] } := by
  constructor
  · intro target_qubits
    unfold target_qubits_validation
    apply decide_eq_false
    split <;> norm_num
  · have hwalk : circuitWalk (⟨[0], [0], [0], [0]⟩ : DynamicDecouplingSequence ℝ)
        [-1] ["offset"] 0 [EmitOp.u3 1 1 1 (-1), EmitOp.barrier (-1)] =
        Except.ok [EmitOp.u3 1 1 1 (-1), EmitOp.barrier (-1),
          EmitOp.u3 0 0 0 (-1), EmitOp.barrier (-1)] := by
      rw [circuitWalk, if_neg (by decide)]
      have hop : ((⟨[0], [0], [0], [0]⟩ :
            DynamicDecouplingSequence ℝ).rabi_rotations.getD 0 0,
          (⟨[0], [0], [0], [0]⟩ :
            DynamicDecouplingSequence ℝ).azimuthal_angles.getD 0 0,
          (⟨[0], [0], [0], [0]⟩ :
            DynamicDecouplingSequence ℝ).detuning_rotations.getD 0 0) =
          ((0 : ℝ), 0, 0) := rfl
      rw [hop, processOffset_zero_pulse]
      rfl
    simp only [convert_dds_to_quantum_circuit, Option.getD_some]
    rw [if_neg (by norm_num), if_neg (by norm_num : ¬ (1 / 10 : ℝ) ≤ 0),
      if_neg (by decide), if_neg (by simp),
      show (([-1] : List ℤ).max?) = some (-1) from rfl,
      if_pos trivial,
      builder_single (1 / 10) (1 / 10) 0 0 0 0 (by norm_num [atol])]
    have hpre : (([-1] : List ℤ).flatMap fun qubit =>
        [EmitOp.u3 (([1, 1, 1] : List ℝ).getD 0 0) (([1, 1, 1] : List ℝ).getD 1 0)
            (([1, 1, 1] : List ℝ).getD 2 0) qubit,
          EmitOp.barrier qubit]) = [EmitOp.u3 1 1 1 (-1), EmitOp.barrier (-1)] := rfl
    rw [hpre]
    dsimp only
    rw [hwalk]
    rfl

/-- C10: with `target_qubits = []` and all other parameters valid, the
conversion is not stopped by the (inoperative) non-negativity validation and
raises none of the documented errors; it fails with Python's built-in
`ValueError` from `max(target_qubits)` during register sizing, before any
gate is emitted. -/
theorem empty_target_qubits_value_error
    (seq : DynamicDecouplingSequence ℝ) (gate_time : ℝ) (ppp : List ℝ)
    (add_measurement : Bool) (algorithm : String) (quantum_registers : Option ℕ)
    (circuit_name : Option String)
    (h3 : ppp.length = 3) (hgt : 0 < gate_time)
    (halg : algorithm = FIX_DURATION_UNITARY ∨ algorithm = INSTANT_UNITARY) :
    convert_dds_to_quantum_circuit (some seq) (some []) gate_time (some ppp)
        add_measurement algorithm quantum_registers circuit_name =
      Except.error (ConvError.valueError msgEmptyMax, []) := by
  simp only [convert_dds_to_quantum_circuit, Option.getD_some]
  rw [if_neg (not_not_intro h3), if_neg (not_le.mpr hgt),
    if_neg (by decide : ¬ (target_qubits_validation [] = true)),
    if_neg (not_not_intro halg)]
  rfl

/-- Witness for `empty_target_qubits_value_error` at concrete valid
parameters. -/
theorem empty_target_qubits_value_error_witness :
    convert_dds_to_quantum_circuit
        (some (⟨[0], [0], [0], [0]⟩ : DynamicDecouplingSequence ℝ)) (some []) 1
        (some [1, 1, 1]) false FIX_DURATION_UNITARY none none =
      Except.error (ConvError.valueError msgEmptyMax, []) :=
  empty_target_qubits_value_error ⟨[0], [0], [0], [0]⟩ 1 [1, 1, 1] false
    FIX_DURATION_UNITARY none none rfl (by norm_num) (Or.inl rfl)

end QCtrl
